import Mathlib

/-!
Shallow embedding of the gradient-lab color engine
(`src/gradient-lab/backend/color_utils.py` and the conic branch of
`create_gradient_image` in `src/gradient-lab/backend/server.py`).

Modelling conventions:
* Python `int` is `ℤ`; Python `float` is idealised as `ℚ` where the code is
  pure rational arithmetic, and as `ℝ` where the code uses transcendental
  functions (`math.pow` with exponent 2.4, `math.atan2`, `math.pi`).
* Python `int(x)` on a number truncates toward zero (`pyTrunc`).
* Python `x % m` on numbers with `m > 0` returns the representative in
  `[0, m)`, i.e. `x - m * ⌊x / m⌋` (`pymod`).
* Fallible code (hex parsing, list indexing, the palette loop) returns
  `Option`.
* `int(s, 16)` is modelled for ASCII strings following CPython's grammar:
  surrounding ASCII whitespace, an optional sign, an optional `0x`/`0X`
  prefix, and hex digits optionally separated by single underscores.
  (CPython additionally accepts some non-ASCII digit and space characters;
  no claim depends on those.)
-/

/-- Truncation toward zero of a rational, Python's `int(float)`. -/
def pyTrunc (q : ℚ) : ℤ := if q < 0 then -⌊-q⌋ else ⌊q⌋

/-- Python's `%` on rationals (result has the sign of the modulus). -/
def pymod (a m : ℚ) : ℚ := a - m * ⌊a / m⌋

/-- Numeric value of an ASCII hex digit (sentinel 16 for non-digits). -/
def hexVal (c : Char) : ℕ :=
  if 48 ≤ c.toNat ∧ c.toNat ≤ 57 then c.toNat - 48
  else if 97 ≤ c.toNat ∧ c.toNat ≤ 102 then c.toNat - 87
  else if 65 ≤ c.toNat ∧ c.toNat ≤ 70 then c.toNat - 55
  else 16

/-- Is `c` an ASCII hexadecimal digit? -/
def isHexDig (c : Char) : Bool :=
  decide ((48 ≤ c.toNat ∧ c.toNat ≤ 57) ∨ (97 ≤ c.toNat ∧ c.toNat ≤ 102) ∨
    (65 ≤ c.toNat ∧ c.toNat ≤ 70))

/-- ASCII whitespace stripped by CPython's `int(str, base)`. -/
def isPySpace (c : Char) : Bool :=
  c = ' ' || c = '\t' || c = '\n' || c = '\r' || c = '\x0b' || c = '\x0c'

/-- Hex digit chain after the first digit: digits optionally separated by
single underscores, underscores may not trail or repeat. -/
def hexChain : ℕ → List Char → Option ℕ
  | acc, [] => some acc
  | acc, c :: rest =>
    if c = '_' then
      match rest with
      | [] => none
      | d :: rest2 => if isHexDig d then hexChain (16 * acc + hexVal d) rest2 else none
    else if isHexDig c then hexChain (16 * acc + hexVal c) rest else none

/-- A nonempty run of hex digits (with interior underscores). -/
def hexBody : List Char → Option ℕ
  | [] => none
  | c :: rest => if isHexDig c then hexChain (hexVal c) rest else none

/-- Digit run right after a `0x` prefix: one extra leading underscore allowed. -/
def hexBodyAfter0x (l : List Char) : Option ℕ :=
  match l with
  | c :: rest => if c = '_' then hexBody rest else hexBody l
  | [] => none

/-- Unsigned part of CPython `int(s, 16)`: optional `0x`/`0X` prefix. -/
def pyIntHexCore (l : List Char) : Option ℕ :=
  match l with
  | c0 :: c1 :: rest =>
    if c0 = '0' ∧ (c1 = 'x' ∨ c1 = 'X') then hexBodyAfter0x rest else hexBody l
  | _ => hexBody l

/-- Strip surrounding ASCII whitespace. -/
def pyStrip (l : List Char) : List Char :=
  ((l.dropWhile isPySpace).reverse.dropWhile isPySpace).reverse

/-- CPython `int(s, 16)` on an ASCII string, `none` on `ValueError`. -/
def pyIntHex (l : List Char) : Option ℤ :=
  match pyStrip l with
  | [] => none
  | c :: rest =>
    if c = '+' then (pyIntHexCore rest).map (fun n => (n : ℤ))
    else if c = '-' then (pyIntHexCore rest).map (fun n => -(n : ℤ))
    else (pyIntHexCore (c :: rest)).map (fun n => (n : ℤ))

/-- Python slice `l[a:a+2]`. -/
def slice2 (l : List Char) (a : ℕ) : List Char := (l.drop a).take 2

/-- `hex_to_rgb` from color_utils.py: strip leading `#`s, parse the three
two-character slices at offsets 0, 2, 4 as hex ints. -/
def hex_to_rgb (s : String) : Option (ℤ × ℤ × ℤ) :=
  let l := s.data.dropWhile (fun c => c = '#')
  match pyIntHex (slice2 l 0), pyIntHex (slice2 l 2), pyIntHex (slice2 l 4) with
  | some r, some g, some b => some (r, g, b)
  | _, _, _ => none

/-- Lowercase hex digit character for a value `< 16`. -/
def hexDigitChar (n : ℕ) : Char :=
  if n < 10 then Char.ofNat (48 + n) else Char.ofNat (87 + n)

/-- Hex digits of `n` (no leading zeros), fuel-structured so that the kernel
can evaluate it; `fuel ≥ n` suffices since `n / 16 < n` for `n ≠ 0`. -/
def natToHexAux : ℕ → ℕ → List Char
  | 0, _ => []
  | fuel + 1, n =>
    if n = 0 then [] else natToHexAux fuel (n / 16) ++ [hexDigitChar (n % 16)]

/-- Lowercase hex representation of a natural number. -/
def natToHex (n : ℕ) : List Char := if n = 0 then ['0'] else natToHexAux n n

/-- Python `f"{z:02x}"`: lowercase hex, zero-padded to width 2 (the sign
counts toward the width, so negatives are just `-` plus the digits). -/
def int02x (z : ℤ) : List Char :=
  if z < 0 then '-' :: natToHex z.natAbs
  else
    let ds := natToHex z.natAbs
    if ds.length < 2 then '0' :: ds else ds

/-- `rgb_to_hex` from color_utils.py: `f"#{r:02x}{g:02x}{b:02x}"`. -/
def rgb_to_hex (r g b : ℤ) : String :=
  String.mk ('#' :: (int02x r ++ int02x g ++ int02x b))

/-!
### colorsys models (Python stdlib `colorsys`), over `ℚ`

The stdlib float constants `ONE_THIRD`, `ONE_SIXTH`, `TWO_THIRD` are
idealised as the exact rationals 1/3, 1/6, 2/3.
-/

/-- `colorsys.rgb_to_hls`, returning `(h, l, s)`. -/
def rgb_to_hls_py (r g b : ℚ) : ℚ × ℚ × ℚ :=
  let maxc := max r (max g b)
  let minc := min r (min g b)
  let sumc := maxc + minc
  let rangec := maxc - minc
  let l := sumc / 2
  if minc = maxc then (0, l, 0)
  else
    let s := if l ≤ 1/2 then rangec / sumc else rangec / (2 - sumc)
    let rc := (maxc - r) / rangec
    let gc := (maxc - g) / rangec
    let bc := (maxc - b) / rangec
    let h := if r = maxc then bc - gc else if g = maxc then 2 + rc - bc else 4 + gc - rc
    (pymod (h / 6) 1, l, s)

/-- `colorsys._v`, the hue-to-channel helper of `hls_to_rgb`. -/
def hlsV (m1 m2 hue : ℚ) : ℚ :=
  let hue := pymod hue 1
  if hue < 1/6 then m1 + (m2 - m1) * hue * 6
  else if hue < 1/2 then m2
  else if hue < 2/3 then m1 + (m2 - m1) * (2/3 - hue) * 6
  else m1

/-- `colorsys.hls_to_rgb`. -/
def hls_to_rgb_py (h l s : ℚ) : ℚ × ℚ × ℚ :=
  if s = 0 then (l, l, l)
  else
    let m2 := if l ≤ 1/2 then l * (1 + s) else l + s - l * s
    let m1 := 2 * l - m2
    (hlsV m1 m2 (h + 1/3), hlsV m1 m2 h, hlsV m1 m2 (h - 1/3))

/-- `colorsys.rgb_to_hsv`. -/
def rgb_to_hsv_py (r g b : ℚ) : ℚ × ℚ × ℚ :=
  let maxc := max r (max g b)
  let minc := min r (min g b)
  let rangec := maxc - minc
  let v := maxc
  if minc = maxc then (0, 0, v)
  else
    let s := rangec / maxc
    let rc := (maxc - r) / rangec
    let gc := (maxc - g) / rangec
    let bc := (maxc - b) / rangec
    let h := if r = maxc then bc - gc else if g = maxc then 2 + rc - bc else 4 + gc - rc
    (pymod (h / 6) 1, s, v)

/-- `colorsys.hsv_to_rgb` (`int()` truncates; `i % 6` is Python int `%`). -/
def hsv_to_rgb_py (h s v : ℚ) : ℚ × ℚ × ℚ :=
  if s = 0 then (v, v, v)
  else
    let i := pyTrunc (h * 6)
    let f := h * 6 - i
    let p := v * (1 - s)
    let q := v * (1 - s * f)
    let t := v * (1 - s * (1 - f))
    let i := i % 6
    if i = 0 then (v, t, p)
    else if i = 1 then (q, v, p)
    else if i = 2 then (p, q, v)
    else if i = 3 then (q, p, v)
    else if i = 4 then (p, t, v)
    else (v, p, q)

/-! ### Color-space converters and interpolators from color_utils.py -/

/-- RGB triple with Python-int channels. -/
abbrev RGBt : Type := ℤ × ℤ × ℤ

/-- `rgb_to_hsl` from color_utils.py. -/
def rgb_to_hsl (r g b : ℤ) : ℚ × ℚ × ℚ :=
  let x := rgb_to_hls_py ((r : ℚ) / 255) ((g : ℚ) / 255) ((b : ℚ) / 255)
  (x.1 * 360, x.2.2 * 100, x.2.1 * 100)

/-- `hsl_to_rgb` from color_utils.py (note the `(h, l, s)` argument order of
the stdlib call, and `int()` truncation of each channel). -/
def hsl_to_rgb (h s l : ℚ) : RGBt :=
  let x := hls_to_rgb_py (h / 360) (l / 100) (s / 100)
  (pyTrunc (x.1 * 255), pyTrunc (x.2.1 * 255), pyTrunc (x.2.2 * 255))

/-- `rgb_to_hsv` from color_utils.py. -/
def rgb_to_hsv (r g b : ℤ) : ℚ × ℚ × ℚ :=
  let x := rgb_to_hsv_py ((r : ℚ) / 255) ((g : ℚ) / 255) ((b : ℚ) / 255)
  (x.1 * 360, x.2.1 * 100, x.2.2 * 100)

/-- `hsv_to_rgb` from color_utils.py. -/
def hsv_to_rgb (h s v : ℚ) : RGBt :=
  let x := hsv_to_rgb_py (h / 360) (s / 100) (v / 100)
  (pyTrunc (x.1 * 255), pyTrunc (x.2.1 * 255), pyTrunc (x.2.2 * 255))

/-- `interpolate_hue` from color_utils.py: shortest-arc hue blend. -/
def interpolate_hue (h1 h2 t : ℚ) : ℚ :=
  let h1 := pymod h1 360
  let h2 := pymod h2 360
  let diff := h2 - h1
  let p : ℚ × ℚ :=
    if |diff| > 180 then (if diff > 0 then (h1 + 360, h2) else (h1, h2 + 360))
    else (h1, h2)
  pymod (p.1 + (p.2 - p.1) * t) 360

/-- `interpolate_rgb` from color_utils.py: independent per-channel linear
blend, each channel truncated toward zero by Python `int()`. -/
def interpolate_rgb (c1 c2 : RGBt) (t : ℚ) : RGBt :=
  (pyTrunc ((c1.1 : ℚ) + ((c2.1 : ℚ) - (c1.1 : ℚ)) * t),
   pyTrunc ((c1.2.1 : ℚ) + ((c2.2.1 : ℚ) - (c1.2.1 : ℚ)) * t),
   pyTrunc ((c1.2.2 : ℚ) + ((c2.2.2 : ℚ) - (c1.2.2 : ℚ)) * t))

/-- `interpolate_hsl` from color_utils.py. -/
def interpolate_hsl (c1 c2 : RGBt) (t : ℚ) : RGBt :=
  let a := rgb_to_hsl c1.1 c1.2.1 c1.2.2
  let b := rgb_to_hsl c2.1 c2.2.1 c2.2.2
  hsl_to_rgb (interpolate_hue a.1 b.1 t)
    (a.2.1 + (b.2.1 - a.2.1) * t) (a.2.2 + (b.2.2 - a.2.2) * t)

/-- `interpolate_hsv` from color_utils.py. -/
def interpolate_hsv (c1 c2 : RGBt) (t : ℚ) : RGBt :=
  let a := rgb_to_hsv c1.1 c1.2.1 c1.2.2
  let b := rgb_to_hsv c2.1 c2.2.1 c2.2.2
  hsv_to_rgb (interpolate_hue a.1 b.1 t)
    (a.2.1 + (b.2.1 - a.2.1) * t) (a.2.2 + (b.2.2 - a.2.2) * t)

/-! ### Palette builder from color_utils.py -/

/-- A color stop: hex color string plus position in percent. -/
structure Stop where
  color : String
  position : ℚ
deriving DecidableEq

/-- Insert keeping earlier-inserted equal keys behind: building block of a
stable sort by position. -/
def insertStop (x : Stop) : List Stop → List Stop
  | [] => [x]
  | y :: ys => if x.position ≤ y.position then x :: y :: ys else y :: insertStop x ys

/-- Python's stable `sorted(stops, key=lambda x: x['position'])`.  Insertion
sort keeps equal-position stops in their original relative order, so it is
extensionally the same function as CPython's stable Timsort. -/
def pySorted (l : List Stop) : List Stop := l.foldr insertStop []

/-- The `rgb_stops` list: each stop's color parsed, paired with its
position; `none` if any hex string fails to parse. -/
def traverseStops : List Stop → Option (List (RGBt × ℚ))
  | [] => some []
  | s :: rest =>
    match hex_to_rgb s.color, traverseStops rest with
    | some c, some rs => some ((c, s.position) :: rs)
    | _, _ => none

/-- The inner `for j in range(len(rgb_stops) - 1)` scan with `break`: the
first adjacent pair whose positions bracket `x`. -/
def findBracket : List (RGBt × ℚ) → ℚ → Option ((RGBt × ℚ) × (RGBt × ℚ))
  | a :: b :: t, x => if a.2 ≤ x ∧ x ≤ b.2 then some (a, b) else findBracket (b :: t) x
  | _, _ => none

/-- The `{'rgb': ..., 'hsl': ..., 'hsv': ...}.get(space, interpolate_rgb)`
dispatch. -/
def interpFor (space : String) : RGBt → RGBt → ℚ → RGBt :=
  if space = "rgb" then interpolate_rgb
  else if space = "hsl" then interpolate_hsl
  else if space = "hsv" then interpolate_hsv
  else interpolate_rgb

/-- `rgb_to_hex(*color)` on a triple. -/
def rgbHex (c : RGBt) : String := rgb_to_hex c.1 c.2.1 c.2.2

/-- `position = (i / (steps - 1)) * 100 if steps > 1 else 0`. -/
def entryPosition (steps : ℤ) (i : ℕ) : ℚ :=
  if 1 < steps then ((i : ℚ) / ((steps : ℚ) - 1)) * 100 else 0

/-- One iteration of the palette loop: the hex string appended for output
index `i` (`none` only if the bracket scan finds nothing, where Python
would fault). -/
def paletteEntry (rs : List (RGBt × ℚ)) (f : RGBt → RGBt → ℚ → RGBt)
    (steps : ℤ) (i : ℕ) : Option String :=
  let position : ℚ := entryPosition steps i
  match rs.head?, rs.getLast? with
  | some first, some last =>
    if position ≤ first.2 then some (rgbHex first.1)
    else if last.2 ≤ position then some (rgbHex last.1)
    else
      match findBracket rs position with
      | some (a, b) =>
        let t : ℚ := if b.2 = a.2 then 0 else (position - a.2) / (b.2 - a.2)
        some (rgbHex (f a.1 b.1 t))
      | none => none
  | _, _ => none

/-- Collect a list of optional values, failing if any is `none`. -/
def optList {α : Type} : List (Option α) → Option (List α)
  | [] => some []
  | x :: rest => x.bind (fun a => (optList rest).map (fun l => a :: l))

/-- `build_palette` from color_utils.py. -/
def build_palette (stops : List Stop) (steps : ℤ) (space : String) :
    Option (List String) :=
  if stops.length < 2 then none
  else
    match traverseStops (pySorted stops) with
    | some rs =>
      optList ((List.range steps.toNat).map (paletteEntry rs (interpFor space) steps))
    | none => none

/-! ### CSS gradient string from color_utils.py -/

/-- Round half to even, Python's `round` on an exact value. -/
def roundHalfEven (q : ℚ) : ℤ :=
  let f := ⌊q⌋
  let r := q - f
  if r < 1/2 then f
  else if 1/2 < r then f + 1
  else if f % 2 = 0 then f else f + 1

/-- Python `round(q, 2)` (exact-decimal idealisation of float rounding). -/
def pyRound2 (q : ℚ) : ℚ := (roundHalfEven (q * 100) : ℚ) / 100

/-- How Python prints the rounded position inside the f-string: int-typed
positions print bare, fractional ones with their 1 or 2 decimal digits
(shortest-repr idealisation for floats). -/
def fmtPos (q : ℚ) : String :=
  if q.den = 1 then toString q.num
  else
    let sign := if q < 0 then "-" else ""
    let a := |q|
    let ip : ℤ := ⌊a⌋
    let fr : ℚ := a - ip
    if (fr * 10).den = 1 then sign ++ toString ip ++ "." ++ toString (fr * 10).num
    else
      let d := (fr * 100).num
      sign ++ toString ip ++ "." ++ (if d < 10 then "0" ++ toString d else toString d)

/-- One CSS color-stop item: `f"{stop['color']} {pos}%"` (the color string
is inserted verbatim, not normalised). -/
def cssStop (s : Stop) : String :=
  s.color ++ " " ++ fmtPos (pyRound2 s.position) ++ "%"

/-- `css_gradient` from color_utils.py: no stop-count check of any kind. -/
def css_gradient (stops : List Stop) (gradient_type : String) (angle : ℤ) :
    String :=
  let stops_str := String.intercalate ", " ((pySorted stops).map cssStop)
  if gradient_type = "linear" then
    "linear-gradient(" ++ toString angle ++ "deg, " ++ stops_str ++ ")"
  else if gradient_type = "radial" then
    "radial-gradient(circle, " ++ stops_str ++ ")"
  else if gradient_type = "conic" then
    "conic-gradient(from " ++ toString angle ++ "deg, " ++ stops_str ++ ")"
  else
    "linear-gradient(" ++ toString angle ++ "deg, " ++ stops_str ++ ")"

/-! ### Contrast analyzer from color_utils.py, over `ℝ`

`pow(..., 2.4)` is a transcendental power, so these definitions live in `ℝ`
and are noncomputable; the float literals are idealised as exact rationals.
-/

open Classical in
/-- The inner `linearize` of `calculate_luminance`: piecewise sRGB-to-linear
transform of one channel. -/
noncomputable def linearize (c : ℤ) : ℝ :=
  let x : ℝ := (c : ℝ) / 255
  if x ≤ 0.03928 then x / 12.92 else ((x + 0.055) / 1.055) ^ (2.4 : ℝ)

/-- Body of `calculate_luminance` on a parsed RGB triple. -/
noncomputable def luminanceRGB (c : RGBt) : ℝ :=
  0.2126 * linearize c.1 + 0.7152 * linearize c.2.1 + 0.0722 * linearize c.2.2

/-- `calculate_luminance` from color_utils.py (`none` if the hex string
fails to parse). -/
noncomputable def calculate_luminance (s : String) : Option ℝ :=
  (hex_to_rgb s).map luminanceRGB

open Classical in
/-- The swap-then-divide at the end of the source's contrast function:
`(lighter + 0.05) / (darker + 0.05)`. -/
noncomputable def contrastOfLums (l1 l2 : ℝ) : ℝ :=
  if l1 < l2 then (l2 + 0.05) / (l1 + 0.05) else (l1 + 0.05) / (l2 + 0.05)

/-- The source's contrast function on two hex color strings (named
`contrast_ratio` in color_utils.py). -/
noncomputable def contrastFn (c1 c2 : String) : Option ℝ :=
  match hex_to_rgb c1, hex_to_rgb c2 with
  | some a, some b => some (contrastOfLums (luminanceRGB a) (luminanceRGB b))
  | _, _ => none

/-! ### Conic rasterization from server.py, over `ℝ` -/

/-- Truncation toward zero of a real, Python's `int(float)`. -/
noncomputable def pyTruncR (x : ℝ) : ℤ := if x < 0 then -⌊-x⌋ else ⌊x⌋

/-- Python float `%` with positive modulus, over `ℝ`. -/
noncomputable def pymodR (a m : ℝ) : ℝ := a - m * ⌊a / m⌋

open Classical in
/-- `math.atan2` (on integer-valued offsets; the C signed-zero corner cases
cannot arise from ints). -/
noncomputable def atan2 (y x : ℝ) : ℝ :=
  if 0 < x then Real.arctan (y / x)
  else if x < 0 then
    (if 0 ≤ y then Real.arctan (y / x) + Real.pi else Real.arctan (y / x) - Real.pi)
  else if 0 < y then Real.pi / 2
  else if y < 0 then -(Real.pi / 2)
  else 0

open Classical in
/-- One pixel of the conic branch of `create_gradient_image` in server.py:
the palette color written at pixel `(x, y)` of a `width × height` image
with start angle `angle` (degrees).  `Int.fdiv` is Python's `//`. -/
noncomputable def conicPixel (palette : List String) (angle : ℤ)
    (width height x y : ℤ) : Option String :=
  let cx := Int.fdiv width 2
  let cy := Int.fdiv height 2
  let startAngle : ℝ := (angle : ℝ) * Real.pi / 180
  let dx := x - cx
  let dy := y - cy
  let pixelAngle : ℝ := if dx = 0 ∧ dy = 0 then 0 else atan2 (dy : ℝ) (dx : ℝ)
  let adjusted := pymodR (pixelAngle - startAngle) (2 * Real.pi)
  let t := adjusted / (2 * Real.pi)
  let rawIndex : ℤ := pyTruncR (t * ((palette.length : ℝ) - 1))
  let clamped := max 0 (min ((palette.length : ℤ) - 1) rawIndex)
  palette.get? clamped.toNat

/-! ### Lemmas about hex digits and parsing -/

theorem isHexDig_iff {c : Char} : isHexDig c = true ↔
    ((48 ≤ c.toNat ∧ c.toNat ≤ 57) ∨ (97 ≤ c.toNat ∧ c.toNat ≤ 102) ∨
      (65 ≤ c.toNat ∧ c.toNat ≤ 70)) := by
  simp [isHexDig]

theorem char_ne_of_toNat {c d : Char} (n : ℕ) (hd : d.toNat = n)
    (h : c.toNat ≠ n) : c ≠ d := fun he => h (he ▸ hd)

theorem hexVal_lt_16 {c : Char} (h : isHexDig c = true) : hexVal c < 16 := by
  have := isHexDig_iff.mp h
  simp only [hexVal]
  split_ifs <;> omega

theorem isHexDig_not_space {c : Char} (h : isHexDig c = true) :
    isPySpace c = false := by
  rcases isHexDig_iff.mp h with h | h | h <;>
  · simp only [isPySpace, Bool.or_eq_false_iff, decide_eq_false_iff_not]
    refine ⟨⟨⟨⟨⟨?_, ?_⟩, ?_⟩, ?_⟩, ?_⟩, ?_⟩
    · exact char_ne_of_toNat 32 rfl (by omega)
    · exact char_ne_of_toNat 9 rfl (by omega)
    · exact char_ne_of_toNat 10 rfl (by omega)
    · exact char_ne_of_toNat 13 rfl (by omega)
    · exact char_ne_of_toNat 11 rfl (by omega)
    · exact char_ne_of_toNat 12 rfl (by omega)

theorem isHexDig_ne_plus {c : Char} (h : isHexDig c = true) : c ≠ '+' := by
  rcases isHexDig_iff.mp h with h | h | h <;>
    exact char_ne_of_toNat 43 rfl (by omega)

theorem isHexDig_ne_minus {c : Char} (h : isHexDig c = true) : c ≠ '-' := by
  rcases isHexDig_iff.mp h with h | h | h <;>
    exact char_ne_of_toNat 45 rfl (by omega)

theorem isHexDig_ne_underscore {c : Char} (h : isHexDig c = true) : c ≠ '_' := by
  rcases isHexDig_iff.mp h with h | h | h <;>
    exact char_ne_of_toNat 95 rfl (by omega)

theorem isHexDig_ne_x {c : Char} (h : isHexDig c = true) : c ≠ 'x' ∧ c ≠ 'X' := by
  rcases isHexDig_iff.mp h with h | h | h <;>
    exact ⟨char_ne_of_toNat 120 rfl (by omega), char_ne_of_toNat 88 rfl (by omega)⟩

theorem isHexDig_ne_hash {c : Char} (h : isHexDig c = true) : c ≠ '#' := by
  rcases isHexDig_iff.mp h with h | h | h <;>
    exact char_ne_of_toNat 35 rfl (by omega)

theorem hexChain_single {c : Char} (acc : ℕ) (h : isHexDig c = true) :
    hexChain acc [c] = some (16 * acc + hexVal c) := by
  simp [hexChain, isHexDig_ne_underscore h, h]

theorem hexBody_pair {c1 c2 : Char} (h1 : isHexDig c1 = true)
    (h2 : isHexDig c2 = true) :
    hexBody [c1, c2] = some (16 * hexVal c1 + hexVal c2) := by
  have := hexChain_single (hexVal c1) h2
  simp [hexBody, h1, this]

theorem pyIntHexCore_pair {c1 c2 : Char} (h1 : isHexDig c1 = true)
    (h2 : isHexDig c2 = true) :
    pyIntHexCore [c1, c2] = some (16 * hexVal c1 + hexVal c2) := by
  have hx := isHexDig_ne_x h2
  have hno : ¬(c1 = '0' ∧ (c2 = 'x' ∨ c2 = 'X')) := by
    rintro ⟨-, h | h⟩
    · exact hx.1 h
    · exact hx.2 h
  simp only [pyIntHexCore, if_neg hno]
  exact hexBody_pair h1 h2

theorem pyStrip_pair {c1 c2 : Char} (h1 : isHexDig c1 = true)
    (h2 : isHexDig c2 = true) : pyStrip [c1, c2] = [c1, c2] := by
  simp [pyStrip, List.dropWhile, isHexDig_not_space h1, isHexDig_not_space h2]

theorem pyIntHex_pair {c1 c2 : Char} (h1 : isHexDig c1 = true)
    (h2 : isHexDig c2 = true) :
    pyIntHex [c1, c2] = some ((16 * hexVal c1 + hexVal c2 : ℕ) : ℤ) := by
  have hs := pyStrip_pair h1 h2
  simp only [pyIntHex, hs]
  rw [if_neg (isHexDig_ne_plus h1), if_neg (isHexDig_ne_minus h1),
    pyIntHexCore_pair h1 h2]
  rfl

theorem hexDigitChar_toLower {c : Char} (h : isHexDig c = true) :
    hexDigitChar (hexVal c) = c.toLower := by
  unfold Char.toLower
  rcases isHexDig_iff.mp h with ⟨ha, hb⟩ | ⟨ha, hb⟩ | ⟨ha, hb⟩
  · have hv : hexVal c = c.toNat - 48 := by rw [hexVal, if_pos ⟨ha, hb⟩]
    rw [hv, hexDigitChar, if_pos (by omega), if_neg (by omega),
      show 48 + (c.toNat - 48) = c.toNat by omega, Char.ofNat_toNat]
  · have hv : hexVal c = c.toNat - 87 := by
      rw [hexVal, if_neg (by omega), if_pos ⟨ha, hb⟩]
    rw [hv, hexDigitChar, if_neg (by omega), if_neg (by omega),
      show 87 + (c.toNat - 87) = c.toNat by omega, Char.ofNat_toNat]
  · have hv : hexVal c = c.toNat - 55 := by
      rw [hexVal, if_neg (by omega), if_neg (by omega), if_pos ⟨ha, hb⟩]
    rw [hv, hexDigitChar, if_neg (by omega), if_pos (by omega),
      show 87 + (c.toNat - 55) = c.toNat + 32 by omega]

theorem natToHexAux_zero (fuel : ℕ) : natToHexAux fuel 0 = [] := by
  cases fuel <;> simp [natToHexAux]

theorem natToHexAux_small {n fuel : ℕ} (h0 : 0 < n) (h : n < 16)
    (hf : 0 < fuel) : natToHexAux fuel n = [hexDigitChar n] := by
  obtain ⟨f, rfl⟩ : ∃ f, fuel = f + 1 := ⟨fuel - 1, by omega⟩
  rw [natToHexAux, if_neg (by omega), Nat.div_eq_of_lt h, natToHexAux_zero,
    Nat.mod_eq_of_lt h, List.nil_append]

theorem natToHex_small {n : ℕ} (h : n < 16) : natToHex n = [hexDigitChar n] := by
  rcases Nat.eq_zero_or_pos n with rfl | h0
  · rfl
  · rw [natToHex, if_neg (by omega)]
    exact natToHexAux_small h0 h h0

theorem natToHex_byte {n : ℕ} (h16 : 16 ≤ n) (h : n < 256) :
    natToHex n = [hexDigitChar (n / 16), hexDigitChar (n % 16)] := by
  obtain ⟨f, rfl⟩ : ∃ f, n = f + 1 := ⟨n - 1, by omega⟩
  rw [natToHex, if_neg (by omega), natToHexAux, if_neg (by omega),
    natToHexAux_small (by omega) (by omega) (by omega), List.singleton_append]

theorem int02x_byte {a b : ℕ} (ha : a < 16) (hb : b < 16) :
    int02x ((16 * a + b : ℕ) : ℤ) = [hexDigitChar a, hexDigitChar b] := by
  rw [int02x, if_neg (by omega), Int.natAbs_ofNat]
  rcases Nat.eq_zero_or_pos a with rfl | h0
  · simp only [Nat.mul_zero, Nat.zero_add]
    rw [natToHex_small hb]
    simp [hexDigitChar]
  · rw [natToHex_byte (by omega) (by omega)]
    have hdiv : (16 * a + b) / 16 = a := by
      rw [Nat.mul_add_div (by omega), Nat.div_eq_of_lt hb, Nat.add_zero]
    have hmod : (16 * a + b) % 16 = b := by
      rw [Nat.mul_add_mod, Nat.mod_eq_of_lt hb]
    rw [hdiv, hmod]
    simp

theorem rgb_to_hex_bytes {a1 b1 a2 b2 a3 b3 : ℕ} (ha1 : a1 < 16) (hb1 : b1 < 16)
    (ha2 : a2 < 16) (hb2 : b2 < 16) (ha3 : a3 < 16) (hb3 : b3 < 16) :
    rgb_to_hex ((16 * a1 + b1 : ℕ) : ℤ) ((16 * a2 + b2 : ℕ) : ℤ)
        ((16 * a3 + b3 : ℕ) : ℤ) =
      String.mk ['#', hexDigitChar a1, hexDigitChar b1, hexDigitChar a2,
        hexDigitChar b2, hexDigitChar a3, hexDigitChar b3] := by
  rw [rgb_to_hex, int02x_byte ha1 hb1, int02x_byte ha2 hb2, int02x_byte ha3 hb3]
  rfl

theorem hex_to_rgb_valid {pre : List Char} {d1 d2 d3 d4 d5 d6 : Char}
    (hpre : pre = [] ∨ pre = ['#'])
    (h1 : isHexDig d1 = true) (h2 : isHexDig d2 = true)
    (h3 : isHexDig d3 = true) (h4 : isHexDig d4 = true)
    (h5 : isHexDig d5 = true) (h6 : isHexDig d6 = true) :
    hex_to_rgb (String.mk (pre ++ [d1, d2, d3, d4, d5, d6])) =
      some (((16 * hexVal d1 + hexVal d2 : ℕ) : ℤ),
        ((16 * hexVal d3 + hexVal d4 : ℕ) : ℤ),
        ((16 * hexVal d5 + hexVal d6 : ℕ) : ℤ)) := by
  have hdrop : (pre ++ [d1, d2, d3, d4, d5, d6]).dropWhile (fun c => c = '#') =
      [d1, d2, d3, d4, d5, d6] := by
    rcases hpre with rfl | rfl <;>
      simp [List.dropWhile, isHexDig_ne_hash h1]
  simp only [hex_to_rgb, hdrop]
  have s0 : slice2 [d1, d2, d3, d4, d5, d6] 0 = [d1, d2] := rfl
  have s2 : slice2 [d1, d2, d3, d4, d5, d6] 2 = [d3, d4] := rfl
  have s4 : slice2 [d1, d2, d3, d4, d5, d6] 4 = [d5, d6] := rfl
  rw [s0, s2, s4, pyIntHex_pair h1 h2, pyIntHex_pair h3 h4, pyIntHex_pair h5 h6]

/-! ### Lemmas about truncation and RGB interpolation -/

theorem pyTrunc_intCast (z : ℤ) : pyTrunc (z : ℚ) = z := by
  unfold pyTrunc
  split_ifs with h
  · rw [show (-(z : ℚ)) = ((-z : ℤ) : ℚ) by push_cast; ring, Int.floor_intCast]
    omega
  · rw [Int.floor_intCast]

theorem pyTrunc_eq_floor {q : ℚ} (h : 0 ≤ q) : pyTrunc q = ⌊q⌋ := by
  unfold pyTrunc
  rw [if_neg (by exact not_lt.mpr h)]

theorem interpolate_rgb_one (c1 c2 : RGBt) : interpolate_rgb c1 c2 1 = c2 := by
  obtain ⟨r1, g1, b1⟩ := c1
  obtain ⟨r2, g2, b2⟩ := c2
  simp only [interpolate_rgb, mul_one]
  have h : ∀ x y : ℤ, (x : ℚ) + ((y : ℚ) - (x : ℚ)) = ((y : ℤ) : ℚ) := by
    intro x y; push_cast; ring
  rw [h, h, h, pyTrunc_intCast, pyTrunc_intCast, pyTrunc_intCast]

theorem interpolate_rgb_zero (c1 c2 : RGBt) : interpolate_rgb c1 c2 0 = c1 := by
  obtain ⟨r1, g1, b1⟩ := c1
  obtain ⟨r2, g2, b2⟩ := c2
  simp only [interpolate_rgb, mul_zero, add_zero]
  rw [pyTrunc_intCast, pyTrunc_intCast, pyTrunc_intCast]

/-! ### Lemmas about the stable sort -/

theorem mem_insertStop {a x : Stop} {l : List Stop} :
    a ∈ insertStop x l ↔ a = x ∨ a ∈ l := by
  induction l with
  | nil => simp [insertStop]
  | cons y ys ih =>
    by_cases h : x.position ≤ y.position
    · simp [insertStop, h]
    · simp only [insertStop, if_neg h, List.mem_cons, ih]
      tauto

theorem mem_pySorted {a : Stop} {l : List Stop} : a ∈ pySorted l ↔ a ∈ l := by
  induction l with
  | nil => simp [pySorted]
  | cons x xs ih =>
    show a ∈ insertStop x (pySorted xs) ↔ _
    rw [mem_insertStop, ih]
    simp

theorem length_insertStop (x : Stop) (l : List Stop) :
    (insertStop x l).length = l.length + 1 := by
  induction l with
  | nil => rfl
  | cons y ys ih =>
    by_cases h : x.position ≤ y.position
    · simp [insertStop, h]
    · simp [insertStop, h, ih]

theorem length_pySorted (l : List Stop) : (pySorted l).length = l.length := by
  induction l with
  | nil => rfl
  | cons x xs ih =>
    show (insertStop x (pySorted xs)).length = _
    rw [length_insertStop, ih]
    rfl

theorem sorted_insertStop {x : Stop} {l : List Stop}
    (h : l.Pairwise (fun a b => a.position ≤ b.position)) :
    (insertStop x l).Pairwise (fun a b => a.position ≤ b.position) := by
  induction l with
  | nil => simp [insertStop]
  | cons y ys ih =>
    rcases List.pairwise_cons.mp h with ⟨hy, hys⟩
    by_cases hxy : x.position ≤ y.position
    · rw [insertStop, if_pos hxy, List.pairwise_cons]
      refine ⟨?_, h⟩
      intro b hb
      rcases List.mem_cons.mp hb with rfl | hb
      · exact hxy
      · exact le_trans hxy (hy b hb)
    · rw [insertStop, if_neg hxy, List.pairwise_cons]
      refine ⟨?_, ih hys⟩
      intro b hb
      rcases mem_insertStop.mp hb with rfl | hb
      · exact le_of_not_le hxy
      · exact hy b hb

theorem sorted_pySorted (l : List Stop) :
    (pySorted l).Pairwise (fun a b => a.position ≤ b.position) := by
  induction l with
  | nil => simp [pySorted]
  | cons x xs ih => exact sorted_insertStop ih

/-! ### Lemmas about traverseStops, optList, findBracket -/

theorem traverseStops_isSome {l : List Stop}
    (h : ∀ s ∈ l, (hex_to_rgb s.color).isSome = true) :
    ∃ rs, traverseStops l = some rs := by
  induction l with
  | nil => exact ⟨[], rfl⟩
  | cons s rest ih =>
    obtain ⟨c, hc⟩ := Option.isSome_iff_exists.mp (h s (by simp))
    obtain ⟨rs, hrs⟩ := ih (fun x hx => h x (by simp [hx]))
    exact ⟨(c, s.position) :: rs, by simp [traverseStops, hc, hrs]⟩

theorem traverseStops_map_snd {l : List Stop} {rs : List (RGBt × ℚ)}
    (h : traverseStops l = some rs) :
    rs.map Prod.snd = l.map Stop.position := by
  induction l generalizing rs with
  | nil =>
    simp only [traverseStops, Option.some_inj] at h
    simp [← h]
  | cons s rest ih =>
    simp only [traverseStops] at h
    rcases hc : hex_to_rgb s.color with - | c <;> rw [hc] at h
    · exact absurd h (by simp)
    rcases hr : traverseStops rest with - | rs2 <;> rw [hr] at h
    · exact absurd h (by simp)
    simp only [Option.some_inj] at h
    subst h
    simp [ih hr]

theorem traverseStops_get {l : List Stop} {rs : List (RGBt × ℚ)}
    (h : traverseStops l = some rs) (i : ℕ) {s : Stop} (hs : l[i]? = some s) :
    ∃ c, hex_to_rgb s.color = some c ∧ rs[i]? = some (c, s.position) := by
  induction l generalizing rs i with
  | nil => simp at hs
  | cons x rest ih =>
    simp only [traverseStops] at h
    rcases hc : hex_to_rgb x.color with - | c <;> rw [hc] at h
    · exact absurd h (by simp)
    rcases hr : traverseStops rest with - | rs2 <;> rw [hr] at h
    · exact absurd h (by simp)
    simp only [Option.some_inj] at h
    subst h
    cases i with
    | zero =>
      simp only [List.getElem?_cons_zero, Option.some_inj] at hs
      subst hs
      exact ⟨c, hc, by simp⟩
    | succ n =>
      simp only [List.getElem?_cons_succ] at hs ⊢
      exact ih hr n hs

theorem optList_isSome {α : Type} {l : List (Option α)}
    (h : ∀ x ∈ l, x.isSome = true) : ∃ ys, optList l = some ys := by
  induction l with
  | nil => exact ⟨[], rfl⟩
  | cons x rest ih =>
    obtain ⟨a, ha⟩ := Option.isSome_iff_exists.mp (h x (by simp))
    obtain ⟨ys, hys⟩ := ih (fun y hy => h y (by simp [hy]))
    exact ⟨a :: ys, by simp [optList, ha, hys]⟩

theorem optList_length {α : Type} {l : List (Option α)} {ys : List α}
    (h : optList l = some ys) : ys.length = l.length := by
  induction l generalizing ys with
  | nil =>
    simp only [optList, Option.some_inj] at h
    simp [← h]
  | cons x rest ih =>
    simp only [optList] at h
    rcases x with - | a
    · exact absurd h (by simp)
    rcases hr : optList rest with - | zs <;> rw [hr] at h
    · exact absurd h (by simp)
    simp only [Option.some_bind, Option.map_some', Option.some_inj] at h
    subst h
    simp [ih hr]

theorem optList_get {α : Type} {l : List (Option α)} {ys : List α}
    (h : optList l = some ys) (i : ℕ) : ys[i]? = (l[i]?).join := by
  induction l generalizing ys i with
  | nil =>
    simp only [optList, Option.some_inj] at h
    subst h
    simp
  | cons x rest ih =>
    simp only [optList] at h
    rcases x with - | a
    · exact absurd h (by simp)
    rcases hr : optList rest with - | zs <;> rw [hr] at h
    · exact absurd h (by simp)
    simp only [Option.some_bind, Option.map_some', Option.some_inj] at h
    subst h
    cases i with
    | zero => simp
    | succ n => simpa using ih hr n

theorem findBracket_exists {rs : List (RGBt × ℚ)} {x : ℚ}
    (hsort : rs.Pairwise (fun a b => a.2 ≤ b.2)) :
    ∀ {first last : RGBt × ℚ}, rs.head? = some first → rs.getLast? = some last →
    first.2 < x → x < last.2 → ∃ p, findBracket rs x = some p := by
  induction rs with
  | nil => intro f g hf; simp at hf
  | cons a t ih =>
    intro first last hf hl hfx hxl
    simp only [List.head?_cons, Option.some_inj] at hf
    subst hf
    cases t with
    | nil =>
      simp only [List.getLast?_singleton, Option.some_inj] at hl
      subst hl
      exact absurd (lt_trans hfx hxl) (lt_irrefl _)
    | cons b t2 =>
      by_cases hbr : a.2 ≤ x ∧ x ≤ b.2
      · exact ⟨(a, b), by rw [findBracket, if_pos hbr]⟩
      · have hax : a.2 ≤ x := le_of_lt hfx
        have hbx : b.2 < x := by
          rcases not_and_or.mp hbr with h | h
          · exact absurd hax h
          · exact lt_of_not_le h
        have hl2 : (b :: t2).getLast? = some last := by
          rwa [List.getLast?_cons_cons] at hl
        obtain ⟨p, hp⟩ := ih (List.Pairwise.sublist (List.sublist_cons_self a _) hsort)
          (List.head?_cons) hl2 hbx hxl
        exact ⟨p, by rw [findBracket, if_neg hbr, hp]⟩

/-! ### Lemmas about palette entries and build_palette -/

theorem entryPosition_zero {steps : ℤ} (h : 1 < steps) :
    entryPosition steps 0 = 0 := by
  rw [entryPosition, if_pos h]
  norm_num

theorem entryPosition_last {steps : ℤ} (h : 2 ≤ steps) :
    entryPosition steps (steps.toNat - 1) = 100 := by
  obtain ⟨n, rfl⟩ : ∃ n : ℕ, steps = (n : ℤ) :=
    ⟨steps.toNat, (Int.toNat_of_nonneg (by omega)).symm⟩
  have hn : 2 ≤ n := by exact_mod_cast h
  rw [entryPosition, if_pos (by exact_mod_cast (by omega : (1 : ℤ) < (n : ℤ)))]
  rw [Int.toNat_natCast]
  have h1 : ((n - 1 : ℕ) : ℚ) = ((n : ℤ) : ℚ) - 1 := by
    push_cast [Nat.cast_sub (by omega : 1 ≤ n)]
    ring
  rw [h1, div_self (sub_ne_zero.mpr
    (by exact_mod_cast (by omega : (n : ℤ) ≠ 1))), one_mul]

theorem paletteEntry_isSome {rs : List (RGBt × ℚ)}
    {f : RGBt → RGBt → ℚ → RGBt} {steps : ℤ} {i : ℕ}
    (hsort : rs.Pairwise (fun a b => a.2 ≤ b.2)) (hne : rs ≠ []) :
    (paletteEntry rs f steps i).isSome = true := by
  obtain ⟨first, t, rfl⟩ := List.exists_cons_of_ne_nil hne
  obtain ⟨lastv, hlast⟩ : ∃ y, (first :: t).getLast? = some y :=
    ⟨(first :: t).getLast (by simp),
      List.getLast?_eq_getLast_of_ne_nil (by simp)⟩
  simp only [paletteEntry, List.head?_cons, hlast]
  by_cases h1 : entryPosition steps i ≤ first.2
  · simp [h1]
  · by_cases h2 : lastv.2 ≤ entryPosition steps i
    · simp [h1, h2]
    · obtain ⟨p, hp⟩ := findBracket_exists hsort (List.head?_cons) hlast
        (lt_of_not_le h1) (lt_of_not_le h2)
      obtain ⟨a, b⟩ := p
      simp [h1, h2, hp]

theorem paletteEntry_zero {rs : List (RGBt × ℚ)}
    {f : RGBt → RGBt → ℚ → RGBt} {steps : ℤ} {first : RGBt × ℚ}
    (hsteps : 2 ≤ steps) (hhead : rs.head? = some first) (hpos : 0 ≤ first.2) :
    paletteEntry rs f steps 0 = some (rgbHex first.1) := by
  cases rs with
  | nil => simp at hhead
  | cons a t =>
    have ha : a = first := by simpa using hhead
    obtain ⟨lastv, hlast⟩ : ∃ y, (a :: t).getLast? = some y :=
      ⟨(a :: t).getLast (by simp),
        List.getLast?_eq_getLast_of_ne_nil (by simp)⟩
    simp only [paletteEntry, List.head?_cons, hlast,
      entryPosition_zero (by omega : (1 : ℤ) < steps)]
    rw [ha, if_pos hpos]

theorem paletteEntry_last {rs : List (RGBt × ℚ)}
    {f : RGBt → RGBt → ℚ → RGBt} {steps : ℤ} {first lastv : RGBt × ℚ}
    (hsteps : 2 ≤ steps) (hhead : rs.head? = some first)
    (hlast : rs.getLast? = some lastv)
    (hfirst : first.2 < 100) (hl : lastv.2 ≤ 100) :
    paletteEntry rs f steps (steps.toNat - 1) = some (rgbHex lastv.1) := by
  cases rs with
  | nil => simp at hhead
  | cons a t =>
    have ha : a = first := by simpa using hhead
    simp only [paletteEntry, List.head?_cons, hlast, entryPosition_last hsteps]
    rw [ha, if_neg (not_le.mpr hfirst), if_pos hl]

theorem build_palette_some {stops : List Stop} {steps : ℤ} {space : String}
    {rs : List (RGBt × ℚ)}
    (hlen : 2 ≤ stops.length)
    (htr : traverseStops (pySorted stops) = some rs) :
    ∃ l, build_palette stops steps space = some l ∧ l.length = steps.toNat ∧
      rs.Pairwise (fun a b => a.2 ≤ b.2) ∧ rs.length = stops.length ∧
      ∀ i, i < steps.toNat →
        l[i]? = paletteEntry rs (interpFor space) steps i := by
  have hsnd := traverseStops_map_snd htr
  have hsort : rs.Pairwise (fun a b => a.2 ≤ b.2) := by
    have hs := (List.pairwise_map (f := Stop.position)).mpr (sorted_pySorted stops)
    rw [← hsnd] at hs
    exact (List.pairwise_map (f := Prod.snd)).mp hs
  have hlenrs : rs.length = stops.length := by
    have := congrArg List.length hsnd
    simpa [length_pySorted] using this
  have hne : rs ≠ [] := by
    intro h
    rw [h] at hlenrs
    simp at hlenrs
    omega
  have hall : ∀ x ∈ (List.range steps.toNat).map
      (paletteEntry rs (interpFor space) steps), x.isSome = true := by
    intro x hx
    obtain ⟨i, -, rfl⟩ := List.mem_map.mp hx
    exact paletteEntry_isSome hsort hne
  obtain ⟨l, hl⟩ := optList_isSome hall
  refine ⟨l, ?_, ?_, hsort, hlenrs, ?_⟩
  · rw [build_palette, if_neg (by omega : ¬ stops.length < 2), htr]
    exact hl
  · rw [optList_length hl]
    simp
  · intro i hi
    rw [optList_get hl i, List.getElem?_map, List.getElem?_range hi]
    rfl

theorem sorted_le_getLast {l : List (RGBt × ℚ)}
    (hs : l.Pairwise (fun a b => a.2 ≤ b.2)) {g : RGBt × ℚ}
    (hg : l.getLast? = some g) : ∀ e ∈ l, e.2 ≤ g.2 := by
  induction l with
  | nil => simp at hg
  | cons x t ih =>
    rcases List.pairwise_cons.mp hs with ⟨hx, ht⟩
    intro e he
    cases t with
    | nil =>
      simp only [List.getLast?_singleton, Option.some_inj] at hg
      simp only [List.mem_singleton] at he
      rw [he, hg]
    | cons y t2 =>
      rw [List.getLast?_cons_cons] at hg
      rcases List.mem_cons.mp he with rfl | he2
      · exact hx g (List.mem_of_getLast?_eq_some hg)
      · exact ih ht hg e he2

theorem findBracket_dup {rs1 : List (RGBt × ℚ)} {g : RGBt × ℚ} {ca : RGBt}
    {p x : ℚ} {rest : List (RGBt × ℚ)}
    (hall : ∀ e ∈ rs1, e.2 < x) (hg : rs1.getLast? = some g) (hx : x ≤ p) :
    findBracket (rs1 ++ (ca, p) :: rest) x = some (g, (ca, p)) := by
  induction rs1 with
  | nil => simp at hg
  | cons e t ih =>
    cases t with
    | nil =>
      have he : e = g := by simpa using hg
      subst he
      rw [List.cons_append, List.nil_append, findBracket,
        if_pos ⟨le_of_lt (hall e (by simp)), hx⟩]
    | cons e2 t2 =>
      have he2 : e2.2 < x := hall e2 (by simp)
      rw [List.cons_append, List.cons_append, findBracket,
        if_neg (fun hc => absurd hc.2 (not_le.mpr he2)), ← List.cons_append]
      exact ih (fun q hq => hall q (by simp [hq]))
        (by rwa [List.getLast?_cons_cons] at hg)

/-! ### Claim theorems -/

/-- C3 counterexample: for stops `[{#FF0000,0},{#0000FF,100}]`, steps 5,
space rgb, the palette entry at index 1 is `"#bf003f"`, not the `"#3f00bf"`
the claim states. -/
theorem c3_counterexample :
    (build_palette [⟨"#FF0000", 0⟩, ⟨"#0000FF", 100⟩] 5 "rgb").bind
      (fun l => l[1]?) = some "#bf003f" ∧ ("#bf003f" : String) ≠ "#3f00bf" := by
  with_unfolding_all decide

/-- C3 (amended): `buildPalette([{#FF0000,0},{#0000FF,100}], 5, rgb)` is
exactly `["#ff0000", "#bf003f", "#7f007f", "#3f00bf", "#0000ff"]` (the
claim's index-1 and index-3 values are swapped); each middle entry parses
to channels strictly between the endpoint values 0 and 255 in both the red
and the blue channel. -/
theorem c3_example_palette :
    build_palette [⟨"#FF0000", 0⟩, ⟨"#0000FF", 100⟩] 5 "rgb" =
      some ["#ff0000", "#bf003f", "#7f007f", "#3f00bf", "#0000ff"] ∧
    hex_to_rgb "#bf003f" = some (191, 0, 63) ∧
    hex_to_rgb "#7f007f" = some (127, 0, 127) ∧
    hex_to_rgb "#3f00bf" = some (63, 0, 191) ∧
    ((0 : ℤ) < 63 ∧ (63 : ℤ) < 255) ∧ ((0 : ℤ) < 127 ∧ (127 : ℤ) < 255) ∧
    ((0 : ℤ) < 191 ∧ (191 : ℤ) < 255) := by
  with_unfolding_all decide

/-- C4: each channel of `interpolate_rgb(c1, c2, t)` is the truncation
toward zero (a value at most the exact blend and greater than the blend
minus one, hence not upward rounding) of `c1.k + (c2.k - c1.k) * t`, and
at `t = 1` and `t = 0` the endpoints are reproduced exactly. -/
theorem c4_interpolate_truncation (c1 c2 : RGBt) (t : ℚ)
    (h1 : 0 ≤ c1.1 ∧ c1.1 ≤ 255 ∧ 0 ≤ c1.2.1 ∧ c1.2.1 ≤ 255 ∧
      0 ≤ c1.2.2 ∧ c1.2.2 ≤ 255)
    (h2 : 0 ≤ c2.1 ∧ c2.1 ≤ 255 ∧ 0 ≤ c2.2.1 ∧ c2.2.1 ≤ 255 ∧
      0 ≤ c2.2.2 ∧ c2.2.2 ≤ 255)
    (ht0 : 0 ≤ t) (ht1 : t ≤ 1) :
    interpolate_rgb c1 c2 t =
      (pyTrunc ((c1.1 : ℚ) + ((c2.1 : ℚ) - (c1.1 : ℚ)) * t),
       pyTrunc ((c1.2.1 : ℚ) + ((c2.2.1 : ℚ) - (c1.2.1 : ℚ)) * t),
       pyTrunc ((c1.2.2 : ℚ) + ((c2.2.2 : ℚ) - (c1.2.2 : ℚ)) * t)) ∧
    (∀ ch1 ch2 : ℤ, 0 ≤ ch1 → 0 ≤ ch2 →
      ((pyTrunc ((ch1 : ℚ) + ((ch2 : ℚ) - (ch1 : ℚ)) * t) : ℚ) ≤
          (ch1 : ℚ) + ((ch2 : ℚ) - (ch1 : ℚ)) * t ∧
        (ch1 : ℚ) + ((ch2 : ℚ) - (ch1 : ℚ)) * t - 1 <
          (pyTrunc ((ch1 : ℚ) + ((ch2 : ℚ) - (ch1 : ℚ)) * t) : ℚ))) ∧
    interpolate_rgb c1 c2 1 = c2 ∧ interpolate_rgb c1 c2 0 = c1 := by
  refine ⟨rfl, ?_, interpolate_rgb_one c1 c2, interpolate_rgb_zero c1 c2⟩
  intro ch1 ch2 hc1 hc2
  have hq1 : (0 : ℚ) ≤ (ch1 : ℚ) := by exact_mod_cast hc1
  have hq2 : (0 : ℚ) ≤ (ch2 : ℚ) := by exact_mod_cast hc2
  have hblend : (0 : ℚ) ≤ (ch1 : ℚ) + ((ch2 : ℚ) - (ch1 : ℚ)) * t := by
    nlinarith [mul_nonneg hq1 (sub_nonneg.mpr ht1), mul_nonneg hq2 ht0]
  rw [pyTrunc_eq_floor hblend]
  exact ⟨Int.floor_le _, Int.sub_one_lt_floor _⟩

/-- C4 witness at `c1 = (10, 20, 30)`, `c2 = (200, 100, 0)`, `t = 1/2`. -/
theorem c4_interpolate_truncation_witness :
    (0 : ℚ) ≤ 1/2 ∧ ((1 : ℚ)/2 ≤ 1) ∧
    (interpolate_rgb (10, 20, 30) (200, 100, 0) (1/2) =
      (pyTrunc ((((10, 20, 30) : RGBt).1 : ℚ) +
        ((((200, 100, 0) : RGBt).1 : ℚ) - (((10, 20, 30) : RGBt).1 : ℚ)) * (1/2)),
       pyTrunc ((((10, 20, 30) : RGBt).2.1 : ℚ) +
        ((((200, 100, 0) : RGBt).2.1 : ℚ) - (((10, 20, 30) : RGBt).2.1 : ℚ)) * (1/2)),
       pyTrunc ((((10, 20, 30) : RGBt).2.2 : ℚ) +
        ((((200, 100, 0) : RGBt).2.2 : ℚ) - (((10, 20, 30) : RGBt).2.2 : ℚ)) * (1/2))) ∧
      (∀ ch1 ch2 : ℤ, 0 ≤ ch1 → 0 ≤ ch2 →
        ((pyTrunc ((ch1 : ℚ) + ((ch2 : ℚ) - (ch1 : ℚ)) * (1/2)) : ℚ) ≤
            (ch1 : ℚ) + ((ch2 : ℚ) - (ch1 : ℚ)) * (1/2) ∧
          (ch1 : ℚ) + ((ch2 : ℚ) - (ch1 : ℚ)) * (1/2) - 1 <
            (pyTrunc ((ch1 : ℚ) + ((ch2 : ℚ) - (ch1 : ℚ)) * (1/2)) : ℚ))) ∧
      interpolate_rgb (10, 20, 30) (200, 100, 0) 1 = (200, 100, 0) ∧
      interpolate_rgb (10, 20, 30) (200, 100, 0) 0 = (10, 20, 30)) :=
  ⟨by norm_num, by norm_num,
    c4_interpolate_truncation (10, 20, 30) (200, 100, 0) (1/2)
      (by norm_num) (by norm_num) (by norm_num) (by norm_num)⟩

/-- C1 counterexample: when every stop sits at position 100, the last
palette entry is the *first* sorted stop's color, not the highest-position
(sorted-last) stop's color: here the sorted-last stop is `#0000ff` but the
palette ends in `#ff0000`. -/
theorem c1_counterexample :
    (pySorted [⟨"#ff0000", 100⟩, ⟨"#0000ff", 100⟩]).getLast? =
      some (⟨"#0000ff", (100 : ℚ)⟩ : Stop) ∧
    hex_to_rgb "#0000ff" = some (0, 0, 255) ∧
    build_palette [⟨"#ff0000", 100⟩, ⟨"#0000ff", 100⟩] 2 "rgb" =
      some ["#ff0000", "#ff0000"] ∧
    some ("#ff0000" : String) ≠ some (rgbHex (0, 0, 255)) := by
  with_unfolding_all decide

/-- C1 (amended): for at least 2 stops with valid hex colors and positions
in [0,100] and any steps ≥ 2 and any space, `build_palette` returns exactly
`steps` hex strings, the first being exactly the lowest-position (sorted
first) stop's color; the last is exactly the highest-position (sorted last)
stop's color provided the lowest sorted position is not 100 (i.e. not all
stops sit at position 100 — in that degenerate case every entry is the
sorted-first stop's color). -/
theorem c1_endpoints (stops : List Stop) (steps : ℤ) (space : String)
    (first lastv : Stop)
    (hlen : 2 ≤ stops.length)
    (hvalid : ∀ s ∈ stops, 0 ≤ s.position ∧ s.position ≤ 100 ∧
      (hex_to_rgb s.color).isSome = true)
    (hsteps : 2 ≤ steps)
    (hfirst : (pySorted stops).head? = some first)
    (hlast : (pySorted stops).getLast? = some lastv)
    (hnot100 : first.position ≠ 100) :
    ∃ l cf cl, build_palette stops steps space = some l ∧
      l.length = steps.toNat ∧
      hex_to_rgb first.color = some cf ∧ l[0]? = some (rgbHex cf) ∧
      hex_to_rgb lastv.color = some cl ∧
      l[steps.toNat - 1]? = some (rgbHex cl) := by
  have hvalid' : ∀ s ∈ pySorted stops, (hex_to_rgb s.color).isSome = true :=
    fun s hs => (hvalid s (mem_pySorted.mp hs)).2.2
  obtain ⟨rs, htr⟩ := traverseStops_isSome hvalid'
  obtain ⟨l, hbp, hlen2, hsort, hlenrs, hget⟩ := build_palette_some hlen htr
  -- the sorted head at index 0
  have hfirst0 : (pySorted stops)[0]? = some first := by
    rwa [List.head?_eq_getElem?] at hfirst
  obtain ⟨cf, hcf, hrs0⟩ := traverseStops_get htr 0 hfirst0
  have hrshead : rs.head? = some (cf, first.position) := by
    rwa [List.head?_eq_getElem?]
  -- the sorted last at index length - 1
  have hlastN : (pySorted stops)[stops.length - 1]? = some lastv := by
    rw [List.getLast?_eq_getElem?, length_pySorted] at hlast
    exact hlast
  obtain ⟨cl, hcl, hrsN⟩ := traverseStops_get htr (stops.length - 1) hlastN
  have hrslast : rs.getLast? = some (cl, lastv.position) := by
    rw [List.getLast?_eq_getElem?, hlenrs]
    exact hrsN
  -- position facts
  have hfmem : first ∈ stops := mem_pySorted.mp (List.getElem?_mem hfirst0)
  have hlmem : lastv ∈ stops := mem_pySorted.mp (List.getElem?_mem hlastN)
  have hf0 : 0 ≤ first.position := (hvalid first hfmem).1
  have hf100 : first.position < 100 :=
    lt_of_le_of_ne (hvalid first hfmem).2.1 hnot100
  have hl100 : lastv.position ≤ 100 := (hvalid lastv hlmem).2.1
  refine ⟨l, cf, cl, hbp, hlen2, hcf, ?_, hcl, ?_⟩
  · rw [hget 0 (by omega), paletteEntry_zero hsteps hrshead hf0]
  · rw [hget (steps.toNat - 1) (by omega),
      paletteEntry_last hsteps hrshead hrslast hf100 hl100]

/-- C1 witness at stops `[{#FF0000,0},{#0000FF,100}]`, steps 2, space rgb. -/
theorem c1_endpoints_witness :
    (2 ≤ ([⟨"#FF0000", 0⟩, ⟨"#0000FF", 100⟩] : List Stop).length) ∧
    (∀ s ∈ ([⟨"#FF0000", 0⟩, ⟨"#0000FF", 100⟩] : List Stop),
      0 ≤ s.position ∧ s.position ≤ 100 ∧ (hex_to_rgb s.color).isSome = true) ∧
    ((2 : ℤ) ≤ 2) ∧
    (pySorted [⟨"#FF0000", 0⟩, ⟨"#0000FF", 100⟩]).head? =
      some (⟨"#FF0000", (0 : ℚ)⟩ : Stop) ∧
    (pySorted [⟨"#FF0000", 0⟩, ⟨"#0000FF", 100⟩]).getLast? =
      some (⟨"#0000FF", (100 : ℚ)⟩ : Stop) ∧
    ((⟨"#FF0000", (0 : ℚ)⟩ : Stop).position ≠ 100) ∧
    (∃ l cf cl, build_palette [⟨"#FF0000", 0⟩, ⟨"#0000FF", 100⟩] 2 "rgb" =
        some l ∧ l.length = (2 : ℤ).toNat ∧
      hex_to_rgb (⟨"#FF0000", (0 : ℚ)⟩ : Stop).color = some cf ∧
      l[0]? = some (rgbHex cf) ∧
      hex_to_rgb (⟨"#0000FF", (100 : ℚ)⟩ : Stop).color = some cl ∧
      l[(2 : ℤ).toNat - 1]? = some (rgbHex cl)) :=
  ⟨by with_unfolding_all decide, by with_unfolding_all decide,
    by with_unfolding_all decide, by with_unfolding_all decide,
    by with_unfolding_all decide, by with_unfolding_all decide,
    c1_endpoints [⟨"#FF0000", 0⟩, ⟨"#0000FF", 100⟩] 2 "rgb"
      ⟨"#FF0000", 0⟩ ⟨"#0000FF", 100⟩
      (by with_unfolding_all decide) (by with_unfolding_all decide)
      (by with_unfolding_all decide) (by with_unfolding_all decide)
      (by with_unfolding_all decide) (by with_unfolding_all decide)⟩

/-- C2 counterexample: stops `#000000@0, #ff0000@50, #00ff00@50, #ffffff@100`
with steps 3 put palette index 1 exactly at the duplicated position 50
(`entryPosition 3 1 = 50`), and the emitted color is `"#ff0000"` — the
*earlier* of the two duplicate-position stops — not the later stop's
`"#00ff00"` as the claim states. -/
theorem c2_counterexample :
    entryPosition 3 1 = 50 ∧
    (build_palette [⟨"#000000", 0⟩, ⟨"#ff0000", 50⟩, ⟨"#00ff00", 50⟩,
        ⟨"#ffffff", 100⟩] 3 "rgb").bind (fun l => l[1]?) = some "#ff0000" ∧
    hex_to_rgb "#00ff00" = some (0, 255, 0) ∧
    some ("#ff0000" : String) ≠ some (rgbHex (0, 255, 0)) := by
  with_unfolding_all decide

/-- C2 (amended): when an evaluation position falls exactly on a duplicated
stop position `p` strictly between the first and last sorted positions, the
bracket scan stops at the segment that *ends* at the first duplicate (the
preceding stop has position `< p`), computes `t = 1`, and so emits the
*earlier* duplicate stop's color exactly (in rgb space); the zero-width
`t = 0` branch is unreachable there. -/
theorem c2_duplicate_position (stops : List Stop) (steps : ℤ) (i : ℕ)
    (rs1 rs2 : List (RGBt × ℚ)) (g : RGBt × ℚ) (ca cb : RGBt) (p : ℚ)
    (lastv : RGBt × ℚ)
    (hlen : 2 ≤ stops.length)
    (htr : traverseStops (pySorted stops) =
      some (rs1 ++ (ca, p) :: (cb, p) :: rs2))
    (hg : rs1.getLast? = some g) (hgp : g.2 < p)
    (hlast : (rs1 ++ (ca, p) :: (cb, p) :: rs2).getLast? = some lastv)
    (hpl : p < lastv.2)
    (hsteps : 2 ≤ steps) (hi : i < steps.toNat)
    (hpos : entryPosition steps i = p) :
    ∃ l, build_palette stops steps "rgb" = some l ∧
      l[i]? = some (rgbHex ca) := by
  obtain ⟨l, hbp, hlen2, hsort, hlenrs, hget⟩ := build_palette_some hlen htr
  refine ⟨l, hbp, ?_⟩
  rw [hget i hi]
  obtain ⟨h0, t0, rfl⟩ : ∃ h0 t0, rs1 = h0 :: t0 := by
    cases rs1 with
    | nil => simp at hg
    | cons a t => exact ⟨a, t, rfl⟩
  have hsort1 : (h0 :: t0).Pairwise (fun a b => a.2 ≤ b.2) :=
    (List.pairwise_append.mp hsort).1
  have hall : ∀ e ∈ h0 :: t0, e.2 < p :=
    fun e he => lt_of_le_of_lt (sorted_le_getLast hsort1 hg e he) hgp
  have hfb : findBracket ((h0 :: t0) ++ (ca, p) :: (cb, p) :: rs2) p =
      some (g, (ca, p)) := findBracket_dup hall hg (le_refl p)
  have hlast' := hlast
  simp only [List.cons_append] at hfb hlast' ⊢
  simp only [paletteEntry, hpos, List.head?_cons, hlast', hfb]
  rw [if_neg (not_le.mpr (hall h0 (by simp))), if_neg (not_le.mpr hpl)]
  have ht1 : (if p = g.2 then (0 : ℚ) else (p - g.2) / (p - g.2)) = 1 := by
    rw [if_neg (ne_of_gt hgp), div_self (sub_ne_zero.mpr (ne_of_gt hgp))]
  have hrgb : interpFor "rgb" = interpolate_rgb := rfl
  rw [ht1, hrgb, interpolate_rgb_one]

/-- C2 witness at the counterexample's stop list, steps 3, index 1. -/
theorem c2_duplicate_position_witness :
    (2 ≤ ([⟨"#000000", 0⟩, ⟨"#ff0000", 50⟩, ⟨"#00ff00", 50⟩,
        ⟨"#ffffff", 100⟩] : List Stop).length) ∧
    traverseStops (pySorted [⟨"#000000", 0⟩, ⟨"#ff0000", 50⟩,
        ⟨"#00ff00", 50⟩, ⟨"#ffffff", 100⟩]) =
      some ([(((0 : ℤ), (0 : ℤ), (0 : ℤ)), (0 : ℚ))] ++
        (((255 : ℤ), (0 : ℤ), (0 : ℤ)), (50 : ℚ)) ::
        (((0 : ℤ), (255 : ℤ), (0 : ℤ)), (50 : ℚ)) ::
        [(((255 : ℤ), (255 : ℤ), (255 : ℤ)), (100 : ℚ))]) ∧
    ([(((0 : ℤ), (0 : ℤ), (0 : ℤ)), (0 : ℚ))] :
        List (RGBt × ℚ)).getLast? = some (((0, 0, 0), 0)) ∧
    ((((0 : ℤ), (0 : ℤ), (0 : ℤ)), (0 : ℚ)) : RGBt × ℚ).2 < 50 ∧
    ([(((0 : ℤ), (0 : ℤ), (0 : ℤ)), (0 : ℚ))] ++
        (((255 : ℤ), (0 : ℤ), (0 : ℤ)), (50 : ℚ)) ::
        (((0 : ℤ), (255 : ℤ), (0 : ℤ)), (50 : ℚ)) ::
        [(((255 : ℤ), (255 : ℤ), (255 : ℤ)), (100 : ℚ))]).getLast? =
      some (((255, 255, 255), 100)) ∧
    (50 : ℚ) < ((((255 : ℤ), (255 : ℤ), (255 : ℤ)), (100 : ℚ)) : RGBt × ℚ).2 ∧
    ((2 : ℤ) ≤ 3) ∧ (1 < (3 : ℤ).toNat) ∧ entryPosition 3 1 = 50 ∧
    (∃ l, build_palette [⟨"#000000", 0⟩, ⟨"#ff0000", 50⟩, ⟨"#00ff00", 50⟩,
        ⟨"#ffffff", 100⟩] 3 "rgb" = some l ∧
      l[1]? = some (rgbHex ((255 : ℤ), (0 : ℤ), (0 : ℤ)))) :=
  ⟨by with_unfolding_all decide, by with_unfolding_all decide,
    by with_unfolding_all decide, by with_unfolding_all decide,
    by with_unfolding_all decide, by with_unfolding_all decide,
    by with_unfolding_all decide, by with_unfolding_all decide,
    by with_unfolding_all decide,
    c2_duplicate_position
      [⟨"#000000", 0⟩, ⟨"#ff0000", 50⟩, ⟨"#00ff00", 50⟩, ⟨"#ffffff", 100⟩] 3 1
      [(((0 : ℤ), (0 : ℤ), (0 : ℤ)), (0 : ℚ))]
      [(((255 : ℤ), (255 : ℤ), (255 : ℤ)), (100 : ℚ))]
      (((0 : ℤ), (0 : ℤ), (0 : ℤ)), (0 : ℚ))
      ((255 : ℤ), (0 : ℤ), (0 : ℤ)) ((0 : ℤ), (255 : ℤ), (0 : ℤ)) 50
      (((255 : ℤ), (255 : ℤ), (255 : ℤ)), (100 : ℚ))
      (by with_unfolding_all decide) (by with_unfolding_all decide)
      (by with_unfolding_all decide) (by with_unfolding_all decide)
      (by with_unfolding_all decide) (by with_unfolding_all decide)
      (by with_unfolding_all decide) (by with_unfolding_all decide)
      (by with_unfolding_all decide)⟩

/-- C5 counterexample: `"ff00005a"` has 8 hex digits — a "wrong length"
input that the claim says must fail — yet `hex_to_rgb` succeeds, parsing
the first six digits and ignoring the rest. -/
theorem c5_counterexample : hex_to_rgb "ff00005a" = some (255, 0, 0) := by
  decide

/-- C5 (amended): `hex_to_rgb` succeeds on every string of six hex digits
with an optional leading `#` (either letter case), returning the three
parsed byte values; but it does not reject every other input: strings with
more than six hex digits also succeed (characters beyond the sixth are
ignored), while inputs whose 2-character slices fail to parse — such as
3- or 4-digit strings, whose third slice is empty — raise `ValueError`. -/
theorem c5_hex_accepts (pre : List Char) (d1 d2 d3 d4 d5 d6 : Char)
    (hpre : pre = [] ∨ pre = ['#'])
    (h1 : isHexDig d1 = true) (h2 : isHexDig d2 = true)
    (h3 : isHexDig d3 = true) (h4 : isHexDig d4 = true)
    (h5 : isHexDig d5 = true) (h6 : isHexDig d6 = true) :
    hex_to_rgb (String.mk (pre ++ [d1, d2, d3, d4, d5, d6])) =
      some (((16 * hexVal d1 + hexVal d2 : ℕ) : ℤ),
        ((16 * hexVal d3 + hexVal d4 : ℕ) : ℤ),
        ((16 * hexVal d5 + hexVal d6 : ℕ) : ℤ)) ∧
    hex_to_rgb "ff00005a" = some (255, 0, 0) ∧
    hex_to_rgb "abc" = none ∧ hex_to_rgb "abcd" = none :=
  ⟨hex_to_rgb_valid hpre h1 h2 h3 h4 h5 h6, by decide, by decide, by decide⟩

/-- C5 witness at the mixed-case string `"#A1b2C3"`. -/
theorem c5_hex_accepts_witness :
    hex_to_rgb (String.mk (['#'] ++ ['A', '1', 'b', '2', 'C', '3'])) =
      some (((16 * hexVal 'A' + hexVal '1' : ℕ) : ℤ),
        ((16 * hexVal 'b' + hexVal '2' : ℕ) : ℤ),
        ((16 * hexVal 'C' + hexVal '3' : ℕ) : ℤ)) :=
  (c5_hex_accepts ['#'] 'A' '1' 'b' '2' 'C' '3' (Or.inr rfl)
    (by decide) (by decide) (by decide) (by decide) (by decide) (by decide)).1

/-- C7: for every valid hex string (six hex digits, optional leading `#`,
any letter case), `rgb_to_hex (hex_to_rgb s)` is exactly `#` followed by
the six digits of `s` in lowercase — the round trip normalises `s`. -/
theorem c7_round_trip (pre : List Char) (d1 d2 d3 d4 d5 d6 : Char)
    (hpre : pre = [] ∨ pre = ['#'])
    (h1 : isHexDig d1 = true) (h2 : isHexDig d2 = true)
    (h3 : isHexDig d3 = true) (h4 : isHexDig d4 = true)
    (h5 : isHexDig d5 = true) (h6 : isHexDig d6 = true) :
    ∃ r g b : ℤ,
      hex_to_rgb (String.mk (pre ++ [d1, d2, d3, d4, d5, d6])) =
        some (r, g, b) ∧
      rgb_to_hex r g b =
        String.mk ('#' :: ([d1, d2, d3, d4, d5, d6].map Char.toLower)) := by
  refine ⟨_, _, _, hex_to_rgb_valid hpre h1 h2 h3 h4 h5 h6, ?_⟩
  rw [rgb_to_hex_bytes (hexVal_lt_16 h1) (hexVal_lt_16 h2) (hexVal_lt_16 h3)
    (hexVal_lt_16 h4) (hexVal_lt_16 h5) (hexVal_lt_16 h6)]
  rw [hexDigitChar_toLower h1, hexDigitChar_toLower h2, hexDigitChar_toLower h3,
    hexDigitChar_toLower h4, hexDigitChar_toLower h5, hexDigitChar_toLower h6]
  rfl

/-- C7 witness at the mixed-case string `"#A1b2C3"`. -/
theorem c7_round_trip_witness :
    ∃ r g b : ℤ,
      hex_to_rgb (String.mk (['#'] ++ ['A', '1', 'b', '2', 'C', '3'])) =
        some (r, g, b) ∧
      rgb_to_hex r g b =
        String.mk ('#' ::
          (['A', '1', 'b', '2', 'C', '3'].map Char.toLower)) :=
  c7_round_trip ['#'] 'A' '1' 'b' '2' 'C' '3' (Or.inr rfl)
    (by decide) (by decide) (by decide) (by decide) (by decide) (by decide)

/-- C6 counterexample: `build_palette` happily accepts a step count of 1
(outside the documented [2,1024]) and stop positions −50 and 150 (outside
[0,100]), returning palettes instead of raising any error. -/
theorem c6_counterexample :
    build_palette [⟨"#FF0000", 0⟩, ⟨"#0000FF", 100⟩] 1 "rgb" =
      some ["#ff0000"] ∧
    build_palette [⟨"#FF0000", -50⟩, ⟨"#0000FF", 150⟩] 2 "rgb" =
      some ["#bf003f", "#3f00bf"] ∧
    build_palette [⟨"#FF0000", 0⟩, ⟨"#0000FF", 100⟩] 2000 "rgb" ≠ none := by
  refine ⟨by with_unfolding_all decide, by with_unfolding_all decide, ?_⟩
  obtain ⟨rs, htr⟩ := traverseStops_isSome
    (l := pySorted [⟨"#FF0000", 0⟩, ⟨"#0000FF", 100⟩])
    (by with_unfolding_all decide)
  obtain ⟨l, hbp, -⟩ :=
    @build_palette_some _ 2000 "rgb" _ (by decide) htr
  simp [hbp]

/-- C6 (amended): `build_palette` performs no defensive range checks: for
any list of at least 2 stops whose hex colors parse, *every* step count
(also ones outside [2,1024]) and *every* stop positions (also ones outside
[0,100]) yield a palette of `max steps 0` entries; the only check the core
performs is the minimum stop count.  Bounds are enforced solely by the
calling layer's request validation. -/
theorem c6_no_range_check (stops : List Stop) (steps : ℤ) (space : String)
    (hlen : 2 ≤ stops.length)
    (hvalid : ∀ s ∈ stops, (hex_to_rgb s.color).isSome = true) :
    ∃ l, build_palette stops steps space = some l ∧
      l.length = steps.toNat := by
  obtain ⟨rs, htr⟩ := traverseStops_isSome
    (fun s hs => hvalid s (mem_pySorted.mp hs))
  obtain ⟨l, hbp, hl, -⟩ := build_palette_some hlen htr
  exact ⟨l, hbp, hl⟩

/-- C6 witness: step count 1 and positions −50/150 — all outside the
documented bounds — still produce a palette. -/
theorem c6_no_range_check_witness :
    (2 ≤ ([⟨"#FF0000", -50⟩, ⟨"#0000FF", 150⟩] : List Stop).length) ∧
    (∀ s ∈ ([⟨"#FF0000", -50⟩, ⟨"#0000FF", 150⟩] : List Stop),
      (hex_to_rgb s.color).isSome = true) ∧
    (∃ l, build_palette [⟨"#FF0000", -50⟩, ⟨"#0000FF", 150⟩] 1 "rgb" =
      some l ∧ l.length = (1 : ℤ).toNat) :=
  ⟨by decide, by decide,
    c6_no_range_check [⟨"#FF0000", -50⟩, ⟨"#0000FF", 150⟩] 1 "rgb"
      (by decide) (by decide)⟩

/-! ### Lemmas for the contrast analyzer -/

theorem linearize_bounds {c : ℤ} (h0 : 0 ≤ c) (h255 : c ≤ 255) :
    0 ≤ linearize c ∧ linearize c ≤ 1 := by
  have hx0 : (0 : ℝ) ≤ (c : ℝ) / 255 :=
    div_nonneg (by exact_mod_cast h0) (by norm_num)
  have hx1 : (c : ℝ) / 255 ≤ 1 := by
    rw [div_le_one (by norm_num)]
    exact_mod_cast h255
  simp only [linearize]
  split_ifs with h
  · constructor
    · positivity
    · rw [div_le_one (by norm_num)]
      linarith
  · have hb0 : (0 : ℝ) ≤ ((c : ℝ) / 255 + 0.055) / 1.055 := by positivity
    have hb1 : ((c : ℝ) / 255 + 0.055) / 1.055 ≤ 1 := by
      rw [div_le_one (by norm_num)]
      linarith
    exact ⟨Real.rpow_nonneg hb0 _, Real.rpow_le_one hb0 hb1 (by norm_num)⟩

theorem luminanceRGB_bounds {c : RGBt}
    (hb : 0 ≤ c.1 ∧ c.1 ≤ 255 ∧ 0 ≤ c.2.1 ∧ c.2.1 ≤ 255 ∧
      0 ≤ c.2.2 ∧ c.2.2 ≤ 255) :
    0 ≤ luminanceRGB c ∧ luminanceRGB c ≤ 1 := by
  obtain ⟨h1, h2, h3, h4, h5, h6⟩ := hb
  have b1 := linearize_bounds h1 h2
  have b2 := linearize_bounds h3 h4
  have b3 := linearize_bounds h5 h6
  unfold luminanceRGB
  constructor <;> nlinarith [b1.1, b1.2, b2.1, b2.2, b3.1, b3.2]

theorem contrastOfLums_comm (l1 l2 : ℝ) :
    contrastOfLums l1 l2 = contrastOfLums l2 l1 := by
  unfold contrastOfLums
  rcases lt_trichotomy l1 l2 with h | h | h
  · rw [if_pos h, if_neg (not_lt.mpr (le_of_lt h))]
  · rw [h]
  · rw [if_neg (not_lt.mpr (le_of_lt h)), if_pos h]

theorem contrastOfLums_self {l : ℝ} (h : 0 ≤ l) : contrastOfLums l l = 1 := by
  unfold contrastOfLums
  rw [if_neg (lt_irrefl l), div_self (by positivity)]

theorem contrastOfLums_range {l1 l2 : ℝ} (h10 : 0 ≤ l1) (h11 : l1 ≤ 1)
    (h20 : 0 ≤ l2) (h21 : l2 ≤ 1) :
    1 ≤ contrastOfLums l1 l2 ∧ contrastOfLums l1 l2 ≤ 21 := by
  unfold contrastOfLums
  split_ifs with h
  · constructor
    · rw [le_div_iff (by linarith)]
      linarith
    · rw [div_le_iff (by linarith)]
      linarith
  · push_neg at h
    constructor
    · rw [le_div_iff (by linarith)]
      linarith
    · rw [div_le_iff (by linarith)]
      linarith

/-- C9: the source's contrast function (`contrast_ratio` in color_utils.py)
is symmetric in its two arguments, equals exactly 1 on two copies of the
same color, and its value always lies in [1, 21]. -/
theorem c9_contrast_props (s1 s2 : String) (c1 c2 : RGBt)
    (hp1 : hex_to_rgb s1 = some c1) (hp2 : hex_to_rgb s2 = some c2)
    (hb1 : 0 ≤ c1.1 ∧ c1.1 ≤ 255 ∧ 0 ≤ c1.2.1 ∧ c1.2.1 ≤ 255 ∧
      0 ≤ c1.2.2 ∧ c1.2.2 ≤ 255)
    (hb2 : 0 ≤ c2.1 ∧ c2.1 ≤ 255 ∧ 0 ≤ c2.2.1 ∧ c2.2.1 ≤ 255 ∧
      0 ≤ c2.2.2 ∧ c2.2.2 ≤ 255) :
    contrastFn s1 s2 = contrastFn s2 s1 ∧
    contrastFn s1 s1 = some 1 ∧
    (∃ v, contrastFn s1 s2 = some v ∧ 1 ≤ v ∧ v ≤ 21) := by
  have hl1 := luminanceRGB_bounds hb1
  have hl2 := luminanceRGB_bounds hb2
  refine ⟨?_, ?_, ?_⟩
  · simp only [contrastFn, hp1, hp2, contrastOfLums_comm]
  · simp only [contrastFn, hp1]
    rw [contrastOfLums_self hl1.1]
  · refine ⟨contrastOfLums (luminanceRGB c1) (luminanceRGB c2), ?_, ?_, ?_⟩
    · simp only [contrastFn, hp1, hp2]
    · exact (contrastOfLums_range hl1.1 hl1.2 hl2.1 hl2.2).1
    · exact (contrastOfLums_range hl1.1 hl1.2 hl2.1 hl2.2).2

/-- C9 witness at `"#FFFFFF"` and `"#000000"`. -/
theorem c9_contrast_props_witness :
    hex_to_rgb "#FFFFFF" = some ((255 : ℤ), (255 : ℤ), (255 : ℤ)) ∧
    hex_to_rgb "#000000" = some ((0 : ℤ), (0 : ℤ), (0 : ℤ)) ∧
    (contrastFn "#FFFFFF" "#000000" = contrastFn "#000000" "#FFFFFF" ∧
      contrastFn "#FFFFFF" "#FFFFFF" = some 1 ∧
      (∃ v, contrastFn "#FFFFFF" "#000000" = some v ∧ 1 ≤ v ∧ v ≤ 21)) :=
  ⟨by decide, by decide,
    c9_contrast_props "#FFFFFF" "#000000" (255, 255, 255) (0, 0, 0)
      (by decide) (by decide) (by decide) (by decide)⟩

/-! ### Lemmas for the conic rasterizer -/

theorem pymodR_nonneg {a m : ℝ} (h : 0 < m) : 0 ≤ pymodR a m := by
  unfold pymodR
  have h1 : (⌊a / m⌋ : ℝ) ≤ a / m := Int.floor_le _
  have h2 : (⌊a / m⌋ : ℝ) * m ≤ a / m * m :=
    mul_le_mul_of_nonneg_right h1 (le_of_lt h)
  rw [div_mul_cancel₀ a (ne_of_gt h)] at h2
  nlinarith

theorem pyTruncR_eq_floor {x : ℝ} (h : 0 ≤ x) : pyTruncR x = ⌊x⌋ := by
  unfold pyTruncR
  rw [if_neg (not_lt.mpr h)]

/-- C8: in conic rasterization, the pixel at the integer center
`(width // 2, height // 2)` (where `dx = dy = 0`) is special-cased to
pixel angle 0, so its color is the palette entry at
`clamp(⌊((0 − angleRad) mod 2π) / 2π · (|palette| − 1)⌋, 0, |palette| − 1)`,
with `angleRad = angle · π / 180`. -/
theorem c8_conic_center (palette : List String) (angle : ℤ)
    (width height : ℤ) (hne : palette ≠ []) :
    conicPixel palette angle width height (Int.fdiv width 2)
        (Int.fdiv height 2) =
      palette[(max 0 (min ((palette.length : ℤ) - 1)
        (⌊pymodR (0 - (angle : ℝ) * Real.pi / 180) (2 * Real.pi) /
            (2 * Real.pi) * ((palette.length : ℝ) - 1)⌋))).toNat]? := by
  have h2pi : (0 : ℝ) < 2 * Real.pi := by positivity
  have hlen1 : 1 ≤ palette.length := List.length_pos.mpr hne
  have hnn : (0 : ℝ) ≤ pymodR (0 - (angle : ℝ) * Real.pi / 180)
      (2 * Real.pi) / (2 * Real.pi) * ((palette.length : ℝ) - 1) := by
    apply mul_nonneg (div_nonneg (pymodR_nonneg h2pi) (le_of_lt h2pi))
    have : (1 : ℝ) ≤ (palette.length : ℝ) := by exact_mod_cast hlen1
    linarith
  simp only [conicPixel, sub_self]
  rw [if_pos (by trivial), pyTruncR_eq_floor hnn, List.get?_eq_getElem?]

/-- C8 witness: one-entry palette, angle 0, a 64×64 image. -/
theorem c8_conic_center_witness :
    (["#ff0000"] : List String) ≠ [] ∧
    conicPixel ["#ff0000"] 0 64 64 (Int.fdiv 64 2) (Int.fdiv 64 2) =
      (["#ff0000"] : List String)[(max 0
        (min (((["#ff0000"] : List String).length : ℤ) - 1)
        (⌊pymodR (0 - ((0 : ℤ) : ℝ) * Real.pi / 180) (2 * Real.pi) /
            (2 * Real.pi) *
          (((["#ff0000"] : List String).length : ℝ) - 1)⌋))).toNat]? :=
  ⟨by decide, c8_conic_center ["#ff0000"] 0 64 64 (by decide)⟩

/-- C10: `css_gradient` never fails on a short stop list: it has no
stop-count check, so every stop list (including the empty and the
single-stop list), every gradient type and every angle produce a gradient
string — for the empty list one with an empty color-stop section; an
unrecognized type falls back to a linear gradient. -/
theorem c10_css_total :
    (∀ (stops : List Stop) (gtype : String) (angle : ℤ),
      ∃ body : String,
        css_gradient stops gtype angle = "linear-gradient(" ++ body ∨
        css_gradient stops gtype angle = "radial-gradient(" ++ body ∨
        css_gradient stops gtype angle = "conic-gradient(" ++ body) ∧
    css_gradient [] "linear" 90 = "linear-gradient(90deg, )" ∧
    css_gradient [] "radial" 0 = "radial-gradient(circle, )" ∧
    css_gradient [] "conic" 45 = "conic-gradient(from 45deg, )" ∧
    css_gradient [⟨"#FF0000", 0⟩] "linear" 90 =
      "linear-gradient(90deg, #FF0000 0%)" ∧
    css_gradient [] "bogus" 10 = "linear-gradient(10deg, )" := by
  refine ⟨?_, by with_unfolding_all decide, by with_unfolding_all decide,
    by with_unfolding_all decide, by with_unfolding_all decide,
    by with_unfolding_all decide⟩
  intro stops gtype angle
  simp only [css_gradient]
  split_ifs
  · exact ⟨_, Or.inl (by rw [String.append_assoc, String.append_assoc,
      String.append_assoc])⟩
  · exact ⟨_, Or.inr (Or.inl (by
      rw [show ("radial-gradient(circle, " : String) =
          "radial-gradient(" ++ "circle, " from rfl,
        String.append_assoc, String.append_assoc]))⟩
  · exact ⟨_, Or.inr (Or.inr (by
      rw [show ("conic-gradient(from " : String) =
          "conic-gradient(" ++ "from " from rfl,
        String.append_assoc, String.append_assoc, String.append_assoc,
        String.append_assoc]))⟩
  · exact ⟨_, Or.inl (by rw [String.append_assoc, String.append_assoc,
      String.append_assoc])⟩
